import Mathlib

/-!
Shallow embedding of `src/Instascan.py` (InstaScan, an Instagram OSINT
tool) for checking its specification.

Modelling conventions:
* Python `datetime` instants (`post.date_utc`) are modelled as integer
  seconds since the Unix epoch.  `datetime.weekday()` (Monday = 0) of an
  instant `t` is `((t.fdiv 86400) + 3) % 7` (1970-01-01 was a Thursday),
  `.hour` is `(t % 86400) / 3600`, and Python's `timedelta.days` is the
  floor division `Int.fdiv` of the second difference by 86400 (Python's
  `//` and `timedelta` normalisation both floor).
* Python float division (`len(...) / max(...)`) is modelled exactly over ℚ.
* Insertion-ordered Python dicts are modelled as association lists in
  insertion order.
* The lazy provider sequence `profile.get_posts()` is modelled as a finite
  list of the records it yields, paired with `Option String`: `some e`
  means the iterator raises exception `e` after yielding the listed
  records, `none` means it is exhausted normally.
* `ThreadPoolExecutor.map(f, xs)` yields the results in the order of `xs`
  regardless of completion order (its documented contract), so it is
  embedded as `List.map`.
* Python's builtin `max(items, key=f)` scans left to right and replaces the
  current best only on a strictly greater key, hence it returns the first
  maximal element; `maxByKeyGo` below implements exactly that fold.
* GPS coordinates (floats carried through unchanged, never computed with)
  are modelled as integers; they are opaque payload for every claim.
-/

namespace Instascan

/-! ### Time handling (datetime as seconds since the epoch) -/

/-- Python `datetime.weekday()` for an instant `t` in seconds since the
epoch: Monday = 0 … Sunday = 6.  1970-01-01 was a Thursday (= 3). -/
def weekdayIdx (t : Int) : Nat := ((t.fdiv 86400 + 3).emod 7).toNat

/-- Python `datetime.hour` for an instant in seconds since the epoch. -/
def hourOf (t : Int) : Nat := ((t.emod 86400).fdiv 3600).toNat

/-- Civil date from a day count since 1970-01-01 (Howard Hinnant's
`civil_from_days` algorithm, used to render `strftime("%Y-%m-%d ...")`). -/
def civilFromDays (z0 : Int) : Int × Nat × Nat :=
  let z : Int := z0 + 719468
  let era : Int := z.fdiv 146097
  let doe : Nat := (z - era * 146097).toNat
  let yoe : Nat := (doe - doe / 1460 + doe / 36524 - doe / 146096) / 365
  let doy : Nat := doe - (365 * yoe + yoe / 4 - yoe / 100)
  let mp : Nat := (5 * doy + 2) / 153
  let d : Nat := doy - (153 * mp + 2) / 5 + 1
  let m : Nat := if mp < 10 then mp + 3 else mp - 9
  (((yoe : Int) + era * 400) + (if m ≤ 2 then 1 else 0), m, d)

/-- Left-pad a number with zeroes to the given width. -/
def padZeroes (w : Nat) (n : Nat) : String :=
  let s := toString n
  String.mk (List.replicate (w - s.length) '0') ++ s

/-- `post.date_utc.strftime("%Y-%m-%d %H:%M:%S")` on the modelled instant. -/
def formatTimestamp (t : Int) : String :=
  let (y, m, d) := civilFromDays (t.fdiv 86400)
  let secs : Nat := (t.emod 86400).toNat
  padZeroes 4 y.toNat ++ "-" ++ padZeroes 2 m ++ "-" ++ padZeroes 2 d ++ " " ++
    padZeroes 2 (secs / 3600) ++ ":" ++ padZeroes 2 (secs % 3600 / 60) ++ ":" ++
    padZeroes 2 (secs % 60)

/-! ### PatternAnalyzer — `analyze_posting_patterns` (Instascan.py:201-223) -/

/-- The `days_of_week` list of `analyze_posting_patterns`. -/
def days_of_week : List String :=
  ["Monday", "Tuesday", "Wednesday", "Thursday", "Friday", "Saturday", "Sunday"]

/-- The final state of the `day_counts` dict: created with the seven keys in
Monday→Sunday order, then incremented per timestamp; insertion order never
changes, so the dict equals each day name paired with its final count. -/
def dayCounts (ts : List Int) : List (String × Nat) :=
  (List.range 7).map (fun d => (days_of_week.getD d "", ts.countP (fun t => weekdayIdx t == d)))

/-- The final state of the `hour_counts` dict (keys 0..23 in order). -/
def hourCounts (ts : List Int) : List (Nat × Nat) :=
  (List.range 24).map (fun h => (h, ts.countP (fun t => hourOf t == h)))

/-- The fold inside Python's builtin `max(..., key=f)`: the running best is
replaced only when a strictly greater key appears, so the first maximal
element wins ties. -/
def maxByKeyGo (f : α → Nat) (best : α) : List α → α
  | [] => best
  | y :: ys => maxByKeyGo f (if f best < f y then y else best) ys

/-- Python `max(l, key=f)` (`none` on the empty list, where Python raises;
both call sites pass dicts that always have 7 resp. 24 items). -/
def maxByKey (f : α → Nat) : List α → Option α
  | [] => none
  | x :: xs => some (maxByKeyGo f x xs)

/-- The non-empty return value of `analyze_posting_patterns`. -/
structure PatternSummary where
  most_active_day : String
  day_activity : List (String × Nat)
  most_active_hour : Nat
  hour_activity : List (Nat × Nat)
  post_frequency_days : ℚ
deriving DecidableEq, Repr

/-- `analyze_posting_patterns(post_times)` (Instascan.py:201-223).  An empty
input returns the empty dict `{}`, modelled as `none`; otherwise the five
keys are filled exactly as in the source.  `post_times[0]` is the head of the
input and `post_times[-1]` its last element; Python's
`(a - b).days` floors, hence `Int.fdiv`. -/
def analyze_posting_patterns (ts : List Int) : Option PatternSummary :=
  match ts with
  | [] => none
  | t :: rest =>
    some
      { most_active_day := ((maxByKey Prod.snd (dayCounts (t :: rest))).map Prod.fst).getD ""
        day_activity := dayCounts (t :: rest)
        most_active_hour := ((maxByKey Prod.snd (hourCounts (t :: rest))).map Prod.fst).getD 0
        hour_activity := hourCounts (t :: rest)
        post_frequency_days :=
          if 1 < (t :: rest).length then
            ((t :: rest).length : ℚ) / ((max ((t - (t :: rest).getLastD t).fdiv 86400) 1 : ℤ) : ℚ)
          else 0 }

/-- Modelled from the spec's words, for comparison with the code (spec §4.2):
"Average frequency: `count(timestamps) / max(days_between(earliest, latest), 1)`
when more than one timestamp exists, else `0`", where `days_between` is "the
absolute day-count span between the chronologically first and last
timestamp", i.e. the non-negative day span between the minimum and maximum
instants of the input. -/
def specPostFrequency (ts : List Int) : ℚ :=
  match ts with
  | [] => 0
  | [_] => 0
  | t :: rest =>
    let earliest := rest.foldl min t
    let latest := rest.foldl max t
    ((t :: rest).length : ℚ) / ((max ((latest - earliest).fdiv 86400) 1 : ℤ) : ℚ)

/-! ### PostAggregator — `analyze_posts` (Instascan.py:109-199) -/

/-- A location attached to a raw post record (`post.location`); the float
coordinates are opaque payload, modelled as integers. -/
structure Location where
  name : String
  id : Nat
  lat : Int
  lng : Int
deriving DecidableEq, Repr

/-- A raw post record as the provider yields it (the `post` attributes
`analyze_posts` reads). -/
structure Post where
  shortcode : String
  date_utc : Int
  likes : Nat
  comments : Nat
  caption : Option String
  location : Option Location
  caption_hashtags : List String
  caption_mentions : List String
  is_video : Bool
deriving DecidableEq, Repr

/-- The `post_data` dict built for each consumed post (Instascan.py:127-138). -/
structure PostData where
  shortcode : String
  url : String
  timestamp : String
  likes : Nat
  comments : Nat
  caption : String
  location : Option String
  hashtags : List String
  mentioned_users : List String
  is_video : Bool
deriving DecidableEq, Repr

/-- A `locations` entry (Instascan.py:148-154). -/
structure LocationEntry where
  name : String
  id : Nat
  lat : Int
  lng : Int
  post_url : String
deriving DecidableEq, Repr

/-- Build the `post_data` dict for one post. -/
def postDataOf (post : Post) : PostData :=
  { shortcode := post.shortcode
    url := "https://www.instagram.com/p/" ++ post.shortcode ++ "/"
    timestamp := formatTimestamp post.date_utc
    likes := post.likes
    comments := post.comments
    caption := post.caption.getD ""
    location := post.location.map Location.name
    hashtags := post.caption_hashtags
    mentioned_users := post.caption_mentions
    is_video := post.is_video }

/-- The `locations` entry of one post, when it carries location data. -/
def locationEntryOf (post : Post) : Option LocationEntry :=
  post.location.map (fun loc =>
    { name := loc.name
      id := loc.id
      lat := loc.lat
      lng := loc.lng
      post_url := "https://www.instagram.com/p/" ++ post.shortcode ++ "/" })

/-- One step of `d[tag] = d.get(tag, 0) + 1` on an insertion-ordered dict:
an existing key is incremented in place, a new key is appended. -/
def bumpCount (acc : List (String × Nat)) (tag : String) : List (String × Nat) :=
  if acc.any (fun p => p.1 == tag) then
    acc.map (fun p => if p.1 == tag then (p.1, p.2 + 1) else p)
  else acc ++ [(tag, 1)]

/-- The final state of the `hashtags` / `mentions` dict after the aggregation
pass (the per-post inner loops concatenate to one token stream). -/
def freqTable (tokens : List String) : List (String × Nat) := tokens.foldl bumpCount []

/-- `sorted(d.items(), key=lambda x: x[1], reverse=True)`: stable sort,
descending by count, first-seen order on ties. -/
def sortedByCountDesc (l : List (String × Nat)) : List (String × Nat) :=
  l.mergeSort (fun a b => decide (b.2 ≤ a.2))

/-- The `analysis_results` dict returned by `analyze_posts`
(`time_patterns := none` models the empty dict `{}`). -/
structure AnalysisResults where
  posts_analyzed : Nat
  posts_data : List PostData
  locations : List LocationEntry
  top_hashtags : List (String × Nat)
  top_mentions : List (String × Nat)
  time_patterns : Option PatternSummary
deriving DecidableEq, Repr

/-- The all-empty bundle `analyze_posts` returns from its `except` branch
(Instascan.py:192-199). -/
def emptyAnalysis : AnalysisResults :=
  { posts_analyzed := 0
    posts_data := []
    locations := []
    top_hashtags := []
    top_mentions := []
    time_patterns := none }

/-- The bundle built from the successfully processed posts
(Instascan.py:172-188). -/
def mkAnalysis (processed : List Post) : AnalysisResults :=
  { posts_analyzed := processed.length
    posts_data := processed.map postDataOf
    locations := processed.filterMap locationEntryOf
    top_hashtags := (sortedByCountDesc (freqTable (processed.flatMap Post.caption_hashtags))).take 20
    top_mentions := (sortedByCountDesc (freqTable (processed.flatMap Post.caption_mentions))).take 20
    time_patterns := analyze_posting_patterns (processed.map Post.date_utc) }

/-- The loop `for i, post in enumerate(posts): if i >= max_posts: break; ...`
(Instascan.py:123-125) run against a stream that yields the given list and
then, when `raises` is true, raises.  Returns
(posts processed, posts pulled from the iterator, whether the exception was
reached).  Each loop iteration first pulls the next item; the `break` test
happens only after a successful pull, so the pull at index `maxPosts` (or the
raise, if the stream ends first) still occurs. -/
def postLoop (maxPosts : Nat) (raises : Bool) : Nat → List Post → List Post × Nat × Bool
  | _, [] => ([], 0, raises)
  | i, p :: ps =>
    if maxPosts ≤ i then ([], 1, false)
    else
      let r := postLoop maxPosts raises (i + 1) ps
      (p :: r.1, r.2.1 + 1, r.2.2)

/-- `analyze_posts(profile)` (Instascan.py:109-199) with `max_posts = maxPosts`,
against a provider stream that yields `stream.1` and then raises `stream.2`
(if `some`).  The whole loop sits in a `try`: when the iterator's exception is
reached, the `except` branch discards everything collected so far and returns
the all-empty bundle; otherwise the bundle is built from the processed posts. -/
def analyze_posts (maxPosts : Nat) (stream : List Post × Option String) : AnalysisResults :=
  let r := postLoop maxPosts stream.2.isSome 0 stream.1
  if r.2.2 then emptyAnalysis else mkAnalysis r.1

/-- How many items `analyze_posts` pulls from the provider's lazy iterator. -/
def postsPulled (maxPosts : Nat) (stream : List Post × Option String) : Nat :=
  (postLoop maxPosts stream.2.isSome 0 stream.1).2.1

/-- A concrete post record used by concrete-input theorems. -/
def examplePost : Post :=
  { shortcode := "Cxyz123"
    date_utc := 1700000000
    likes := 10
    comments := 2
    caption := some "hello #cat"
    location := none
    caption_hashtags := ["cat"]
    caption_mentions := []
    is_video := false }

/-! ### ConnectionDiffer — `analyze_connections` (Instascan.py:225-280) -/

/-- A follower/followee record as `analyze_connections` stores it
(Instascan.py:244-248). -/
structure User where
  username : String
  full_name : String
  is_verified : Bool
deriving DecidableEq, Repr

/-- `[user["username"] for user in following if user["username"] not in
[f["username"] for f in followers]]` (Instascan.py:260-261). -/
def notFollowingBack (followers following : List User) : List String :=
  (following.filter
    (fun user => decide (user.username ∉ followers.map User.username))).map User.username

/-- `[user["username"] for user in followers if user["username"] not in
[f["username"] for f in following]]` (Instascan.py:264-265). -/
def notFollowedBack (followers following : List User) : List String :=
  (followers.filter
    (fun user => decide (user.username ∉ following.map User.username))).map User.username

/-- The value side of the heterogeneous dict `analyze_connections` returns. -/
inductive ConnVal where
  | nat (n : Nat)
  | strList (l : List String)
  | userList (l : List User)
deriving DecidableEq, Repr

/-- The dict `{"followers": [], "following": []}` returned by every failure
path of `analyze_connections` (Instascan.py:229, 233, 280). -/
def failure_connections : List (String × ConnVal) :=
  [("followers", .userList []), ("following", .userList [])]

/-- `analyze_connections(profile)` (Instascan.py:225-280).  The follower /
followee streams are modelled as `Except`: `.error e` means enumerating the
stream raises (any prefix already collected is discarded by the `except`
branch, which returns fresh empty lists). -/
def analyze_connections (isPrivate loggedIn : Bool)
    (followersRes followeesRes : Except String (List User)) : List (String × ConnVal) :=
  if isPrivate then failure_connections
  else if !loggedIn then failure_connections
  else
    match followersRes, followeesRes with
    | .ok followers, .ok following =>
      [("followers_count", .nat followers.length),
       ("following_count", .nat following.length),
       ("not_following_back", .strList (notFollowingBack followers following)),
       ("not_followed_back", .strList (notFollowedBack followers following)),
       ("followers", .userList followers),
       ("following", .userList following)]
    | _, _ => failure_connections

/-! ### PresenceProber — `check_url` / `search_external_references`
(Instascan.py:282-339) -/

/-- The seven templated platform URLs (Instascan.py:286-294). -/
def sites_to_check (target : String) : List String :=
  ["https://twitter.com/" ++ target,
   "https://www.facebook.com/" ++ target,
   "https://www.tiktok.com/@" ++ target,
   "https://www.reddit.com/user/" ++ target,
   "https://www.linkedin.com/in/" ++ target,
   "https://github.com/" ++ target,
   "https://www.youtube.com/user/" ++ target]

/-- The `response_code` field holds an HTTP status code on a received
response and `str(e)` on a transport failure. -/
inductive ResponseCode where
  | num (n : Nat)
  | msg (s : String)
deriving DecidableEq, Repr

/-- One entry of the external-reference result list (Instascan.py:307-327). -/
structure PresenceResult where
  platform : String
  url : String
  status : String
  response_code : ResponseCode
deriving DecidableEq, Repr

/-- `urlparse(url).netloc` for the scheme-carrying URLs probed here: the text
after `"://"` up to the next `/`. -/
def netloc (url : String) : String :=
  (((url.splitOn "://").getD 1 "").splitOn "/").headD ""

/-- `domain.split(".")[0].capitalize()` after
`urlparse(url).netloc.replace("www.", "")` (Python `replace` removes every
occurrence, as does `String.replace`). -/
def platformOf (url : String) : String :=
  ((((netloc url).replace "www." "").splitOn ".").headD "").capitalize

/-- `check_url(url)` (Instascan.py:298-327).  The network is abstracted as an
oracle giving, per URL, either a received HTTP status code (`.ok`) or the
rendering `str(e)` of a transport-level exception (`.error`); the function
itself is total — the `except` branch converts any exception into an
`"Error"` entry. -/
def check_url (oracle : String → Except String Nat) (url : String) : PresenceResult :=
  match oracle url with
  | .ok code =>
    if code = 200 then
      { platform := platformOf url, url := url, status := "Found", response_code := .num code }
    else
      { platform := platformOf url, url := url, status := "Not found", response_code := .num code }
  | .error e =>
    { platform := platformOf url, url := url, status := "Error", response_code := .msg e }

/-- `list(executor.map(check_url, urls))`: the executor returns results in
input order regardless of task completion order, hence `List.map`. -/
def probeAll (oracle : String → Except String Nat) (urls : List String) : List PresenceResult :=
  urls.map (check_url oracle)

/-- `search_external_references()` (Instascan.py:282-339). -/
def search_external_references (oracle : String → Except String Nat)
    (target : String) : List PresenceResult :=
  probeAll oracle (sites_to_check target)

/-! ### CSV export — `export_results`, posts/locations artifacts
(Instascan.py:372-386), with `csv.DictWriter` semantics: default
`extrasaction="raise"` (a row key outside `fieldnames` raises `ValueError`)
and default `restval=""` (a missing key is written as the empty string). -/

/-- A record to be written as a CSV row: an insertion-ordered dict. -/
abbrev Row : Type := List (String × String)

/-- `rowdict.get(key, restval)`. -/
def rowGet (row : Row) (k : String) (d : String) : String :=
  (((row.find? (fun p => p.1 == k)).map Prod.snd)).getD d

/-- `csv.DictWriter._dict_to_list(rowdict)` with the defaults used at
Instascan.py:376/384: keys of the row outside `fieldnames` raise
`ValueError("dict contains fields not in fieldnames: ...")`; otherwise each
field is looked up with `restval = ""`. -/
def dictToList (fieldnames : List String) (row : Row) : Except String (List String) :=
  let wrong := (row.map Prod.fst).filter (fun k => decide (k ∉ fieldnames))
  if wrong ≠ [] then
    .error ("dict contains fields not in fieldnames: " ++ String.intercalate ", " wrong)
  else
    .ok (fieldnames.map (fun k => rowGet row k ""))

/-- `writer.writerows(rows)`: rows are converted and written one by one;
the first offending row raises, leaving the earlier rows written.
Returns (rows actually written, the raised error if any). -/
def writeRowsAcc (fieldnames : List String) : List Row → List (List String) × Option String
  | [] => ([], none)
  | r :: rs =>
    match dictToList fieldnames r with
    | .error e => ([], some e)
    | .ok vals =>
      match writeRowsAcc fieldnames rs with
      | (rest, err) => (vals :: rest, err)

/-- The posts (and, identically, locations) CSV artifact
(Instascan.py:373-378 resp. 381-386): skipped (`none`) when there are no
records; otherwise the field set is the first record's key list, a header row
is written, then every record.  The result is
(lines written to the file, the raised `ValueError` if any). -/
def exportPostsCsv (postsData : List Row) : Option (List (List String) × Option String) :=
  match postsData with
  | [] => none
  | r :: rest =>
    let keys := r.map Prod.fst
    match writeRowsAcc keys (r :: rest) with
    | (written, err) => some (keys :: written, err)

/-! ### Behaviour of the post-consumption loop -/

/-- Closed form of `postLoop`: starting at index `i ≤ maxPosts` it processes
the next `m - i` items, pulls one more item than it processes whenever the
stream is long enough, and reaches the stream's end (hence its pending
exception) exactly when the stream runs out within the window. -/
theorem postLoop_eq (m : Nat) (raises : Bool) (ps : List Post) : ∀ i : Nat, i ≤ m →
    postLoop m raises i ps
      = (ps.take (m - i), min ps.length (m - i + 1), raises && decide (ps.length + i ≤ m)) := by
  induction ps with
  | nil =>
    intro i hi
    simp [postLoop, hi]
  | cons p ps ih =>
    intro i hi
    rcases Nat.lt_or_ge i m with hlt | hge
    · have h1 : ¬ m ≤ i := Nat.not_le.mpr hlt
      have h3 : m - i = (m - (i + 1)) + 1 := by omega
      rw [show postLoop m raises i (p :: ps)
            = (p :: (postLoop m raises (i + 1) ps).1,
               (postLoop m raises (i + 1) ps).2.1 + 1,
               (postLoop m raises (i + 1) ps).2.2) from by simp [postLoop, h1]]
      rw [ih (i + 1) hlt, h3, List.take_succ_cons, List.length_cons, Nat.succ_min_succ]
      rw [show decide (ps.length + 1 + i ≤ m) = decide (ps.length + (i + 1) ≤ m) from
            decide_eq_decide.mpr (by omega)]
    · have h5 : m - i = 0 := by omega
      have h6 : ¬ ((p :: ps).length + i ≤ m) := by
        simp only [List.length_cons]; omega
      rw [show postLoop m raises i (p :: ps) = ([], 1, false) from by simp [postLoop, hge]]
      rw [h5, List.take_zero]
      rw [show min (p :: ps).length (0 + 1) = 1 from by simp only [List.length_cons]; omega]
      rw [show (raises && decide ((p :: ps).length + i ≤ m)) = false from by
            rw [decide_eq_false h6, Bool.and_false]]

/-- `postLoop` from index 0 (the form the loop is entered with). -/
theorem postLoop_zero (m : Nat) (raises : Bool) (ps : List Post) :
    postLoop m raises 0 ps
      = (ps.take m, min ps.length (m + 1), raises && decide (ps.length ≤ m)) := by
  simpa using postLoop_eq m raises ps 0 (Nat.zero_le m)

/-- C5 (counterexample): with `limit = 0` the aggregation loop still pulls one
post from the provider sequence, so it does not consume at most `limit` posts. -/
theorem window_extra_pull : ¬ (postsPulled 0 ([examplePost], none) ≤ 0) := by decide

/-- C5 (amended): the aggregation loop pulls at most `limit + 1` items from
the provider sequence — exactly `min (length) (limit + 1)`, i.e. one beyond
the window whenever the sequence is longer than `limit` — and (on a stream
that does not raise) the bundle holds exactly `min (length) limit` post
summaries, with no padding. -/
theorem window_bounded (limit : Nat) (posts : List Post) (raiseMsg : Option String) :
    postsPulled limit (posts, raiseMsg) ≤ limit + 1 ∧
    postsPulled limit (posts, raiseMsg) = min posts.length (limit + 1) ∧
    (analyze_posts limit (posts, none)).posts_analyzed = min posts.length limit ∧
    (analyze_posts limit (posts, none)).posts_data.length = min posts.length limit := by
  have h := postLoop_zero limit (Option.isSome raiseMsg) posts
  have h0 := postLoop_zero limit false posts
  have hn : analyze_posts limit (posts, none) = mkAnalysis (posts.take limit) := by
    simp [analyze_posts, h0]
  refine ⟨?_, ?_, ?_, ?_⟩
  · simp only [postsPulled, h]
    exact le_trans (Nat.min_le_right _ _) (le_refl _)
  · simp [postsPulled, h]
  · rw [hn]; simp [mkAnalysis, List.length_take]; omega
  · rw [hn]; simp [mkAnalysis, List.length_take]; omega

/-- C1 (counterexample): the provider stream yields one post and then raises;
the window (50) is not yet full, so the claim requires a bundle reflecting
the one-post prefix, but `analyze_posts` returns the zeroed bundle. -/
theorem aggregation_failure_empty_counterexample :
    (analyze_posts 50 ([examplePost], some "boom")).posts_analyzed = 0 ∧
    ¬ ((analyze_posts 50 ([examplePost], some "boom")).posts_analyzed
        = ([examplePost] : List Post).length) := by decide

/-- C1 (amended): when enumerating the provider stream raises at a point
within the window (the stream yields at most `limit` posts before raising),
`analyze_posts` discards every consumed item and returns the zeroed/empty
bundle; when the raise point lies beyond the window cutoff the full window is
returned; in every case the function returns a bundle instead of propagating
the failure. -/
theorem aggregation_failure_discards_all (limit : Nat) (posts : List Post) (msg : String) :
    (posts.length ≤ limit → analyze_posts limit (posts, some msg) = emptyAnalysis) ∧
    (limit < posts.length → analyze_posts limit (posts, some msg) = mkAnalysis (posts.take limit)) ∧
    analyze_posts limit (posts, none) = mkAnalysis (posts.take limit) := by
  have h := postLoop_zero limit true posts
  have h0 := postLoop_zero limit false posts
  refine ⟨?_, ?_, ?_⟩
  · intro hle
    simp [analyze_posts, h, hle]
  · intro hlt
    have hn : ¬ (posts.length ≤ limit) := Nat.not_le.mpr hlt
    simp [analyze_posts, h, hn]
  · simp [analyze_posts, h0]

/-- Witness for the amended C1 at concrete inputs: a raise within the window
discards the consumed post; a raise beyond the window (limit 0, raise after
one post) leaves the windowed bundle intact. -/
theorem aggregation_failure_discards_all_witness :
    analyze_posts 50 ([examplePost], some "boom") = emptyAnalysis ∧
    analyze_posts 0 ([examplePost], some "boom") = mkAnalysis ([examplePost].take 0) :=
  ⟨(aggregation_failure_discards_all 50 [examplePost] "boom").1 (by decide),
   (aggregation_failure_discards_all 0 [examplePost] "boom").2.1 (by decide)⟩

/-! ### PatternAnalyzer theorems -/

/-- C2 (counterexample): for the empty timestamp sequence the analyzer does
not return a summary with all-zero 7/24-bucket histograms and frequency 0 —
it returns the empty dict `{}` (modelled `none`), which carries no histogram
buckets and no frequency entry at all. -/
theorem empty_patterns_no_histograms :
    (analyze_posting_patterns ([] : List Int)).isSome = false := rfl

/-- C2 (amended): `analyze_posting_patterns` maps the empty timestamp
sequence to the entirely empty summary `{}` (no histogram keys, no maxima,
no frequency entry) and never fails; a populated summary exists exactly for
non-empty input. -/
theorem empty_patterns_empty_summary :
    analyze_posting_patterns ([] : List Int) = none ∧
    ∀ ts : List Int, (analyze_posting_patterns ts).isSome = decide (ts ≠ []) := by
  refine ⟨rfl, ?_⟩
  intro ts
  cases ts with
  | nil => rfl
  | cons t rest => simp [analyze_posting_patterns]

/-- Folding `max` over elements all bounded by the start value returns the
start value. -/
theorem foldl_max_of_le (t : Int) (l : List Int) (h : ∀ x ∈ l, x ≤ t) :
    l.foldl max t = t := by
  induction l generalizing t with
  | nil => rfl
  | cons a l ih =>
    have ha : max t a = t := max_eq_left (h a (by simp))
    simp only [List.foldl_cons, ha]
    exact ih t (fun x hx => h x (by simp [hx]))

/-- On a non-increasing list, folding `min` from the head gives the last
element. -/
theorem foldl_min_sorted (t : Int) (l : List Int) (h : List.Sorted (· ≥ ·) (t :: l)) :
    l.foldl min t = (t :: l).getLastD t := by
  induction l generalizing t with
  | nil => rfl
  | cons a l ih =>
    have h1 := List.sorted_cons.mp h
    have ha : min t a = a := min_eq_right (h1.1 a (by simp))
    simp only [List.foldl_cons, ha]
    rw [ih a h1.2]
    rw [List.getLastD_cons t t (a :: l), List.getLastD_cons a a l, List.getLastD_cons t a l]

/-- C3 (counterexample): for the oldest-first two-timestamp input
`[0, 864000]` (epoch, epoch + 10 days) the code's average is `2` — the signed
span `(first - last).days = -10` is clamped to `1` instead of taking the
absolute 10-day span — while the spec formula gives `1/5`; reversing the
input order changes the result. -/
theorem post_frequency_order_dependent :
    (analyze_posting_patterns [0, 864000]).map (fun s => s.post_frequency_days)
        ≠ some (specPostFrequency [0, 864000]) ∧
    (analyze_posting_patterns [0, 864000]).map (fun s => s.post_frequency_days)
        ≠ (analyze_posting_patterns [864000, 0]).map (fun s => s.post_frequency_days) := by
  have h1 : (analyze_posting_patterns [(0 : Int), 864000]).map (fun s => s.post_frequency_days)
      = some ((2 : ℚ) / ((max (((0 : Int) - 864000).fdiv 86400) 1 : ℤ) : ℚ)) := rfl
  have h2 : specPostFrequency [(0 : Int), 864000]
      = (2 : ℚ) / ((max ((max (0 : Int) 864000 - min (0 : Int) 864000).fdiv 86400) 1 : ℤ) : ℚ) :=
    rfl
  have h3 : (analyze_posting_patterns [(864000 : Int), 0]).map (fun s => s.post_frequency_days)
      = some ((2 : ℚ) / ((max (((864000 : Int) - 0).fdiv 86400) 1 : ℤ) : ℚ)) := rfl
  constructor
  · rw [h1, h2, show max (((0 : Int) - 864000).fdiv 86400) 1 = 1 from by decide,
       show max ((max (0 : Int) 864000 - min (0 : Int) 864000).fdiv 86400) 1 = 10 from by decide]
    norm_num
  · rw [h1, h3, show max (((0 : Int) - 864000).fdiv 86400) 1 = 1 from by decide,
       show max (((864000 : Int) - 0).fdiv 86400) 1 = 10 from by decide]
    norm_num

/-- C3 (amended): the code divides the count by
`max((first − last).days, 1)` on the *positional* first and last timestamps,
with no absolute value — so the claimed formula
`count / max(days_between(earliest, latest), 1)` holds whenever the input is
ordered newest-first (non-increasing), the provider's natural order; an
oldest-first ordering instead clamps the negative span to 1 (see the
counterexample).  For a single timestamp both sides are 0; for the empty
input no summary (hence no average) is produced at all. -/
theorem post_frequency_newest_first (t : Int) (rest : List Int)
    (hs : List.Sorted (· ≥ ·) (t :: rest)) :
    (analyze_posting_patterns (t :: rest)).map (fun s => s.post_frequency_days)
      = some (specPostFrequency (t :: rest)) := by
  cases rest with
  | nil => rfl
  | cons r rs =>
    have h1 := List.sorted_cons.mp hs
    have hmax : (r :: rs).foldl max t = t := foldl_max_of_le t (r :: rs) (fun x hx => h1.1 x hx)
    have hmin : (r :: rs).foldl min t = (t :: r :: rs).getLastD t := foldl_min_sorted t (r :: rs) hs
    have hlen : 1 < (t :: r :: rs).length := by simp
    have e1 : (analyze_posting_patterns (t :: r :: rs)).map (fun s => s.post_frequency_days)
        = some (if 1 < (t :: r :: rs).length then
            ((t :: r :: rs).length : ℚ)
              / ((max ((t - (t :: r :: rs).getLastD t).fdiv 86400) 1 : ℤ) : ℚ)
          else 0) := rfl
    have e2 : specPostFrequency (t :: r :: rs)
        = ((t :: r :: rs).length : ℚ)
            / ((max (((r :: rs).foldl max t - (r :: rs).foldl min t).fdiv 86400) 1 : ℤ) : ℚ) :=
      rfl
    rw [e1, e2, hmax, hmin, if_pos hlen]

/-- Witness for the amended C3: three timestamps-ago input ordered
newest-first evaluates to the spec formula. -/
theorem post_frequency_newest_first_witness :
    (analyze_posting_patterns [259200, 0]).map (fun s => s.post_frequency_days)
      = some (specPostFrequency [259200, 0]) :=
  post_frequency_newest_first 259200 [0] (by decide)

/-! ### Most-active bucket: Python `max` returns the first maximum -/

theorem find?_cons_true (p : α → Bool) (a : α) (l : List α) (h : p a = true) :
    (a :: l).find? p = some a := by
  simp [List.find?, h]

theorem find?_cons_false (p : α → Bool) (a : α) (l : List α) (h : p a = false) :
    (a :: l).find? p = l.find? p := by
  simp [List.find?, h]

/-- The fold implementing Python's `max(key=f)` returns exactly the first
list element whose key is maximal (≥ every element's key). -/
theorem maxByKeyGo_find (f : α → Nat) :
    ∀ (xs : List α) (x : α),
      (x :: xs).find? (fun p => (x :: xs).all (fun q => decide (f q ≤ f p)))
        = some (maxByKeyGo f x xs) := by
  intro xs
  induction xs with
  | nil =>
    intro x
    rw [find?_cons_true (fun p => ([x] : List α).all (fun q => decide (f q ≤ f p))) x []
          (by simp)]
    rfl
  | cons y ys ih =>
    intro x
    by_cases hxy : f x < f y
    · have hpred : (fun p => (x :: y :: ys).all (fun q => decide (f q ≤ f p)))
          = (fun p => (y :: ys).all (fun q => decide (f q ≤ f p))) := by
        funext p
        by_cases hyp : f y ≤ f p
        · have hxp : f x ≤ f p := le_of_lt (lt_of_lt_of_le hxy hyp)
          simp [List.all_cons, hxp]
        · simp [List.all_cons, hyp]
      have hx : ((fun p => (x :: y :: ys).all (fun q => decide (f q ≤ f p))) x) = false := by
        have hyx : ¬ (f y ≤ f x) := not_le.mpr hxy
        simp [List.all_cons, hyx]
      rw [find?_cons_false (fun p => (x :: y :: ys).all (fun q => decide (f q ≤ f p)))
            x (y :: ys) hx]
      rw [hpred, ih y]
      simp [maxByKeyGo, hxy]
    · have hyx : f y ≤ f x := not_lt.mp hxy
      have hpred : (fun p => (x :: y :: ys).all (fun q => decide (f q ≤ f p)))
          = (fun p => (x :: ys).all (fun q => decide (f q ≤ f p))) := by
        funext p
        by_cases hxp : f x ≤ f p
        · have hyp : f y ≤ f p := le_trans hyx hxp
          simp [List.all_cons, hxp, hyp]
        · simp [List.all_cons, hxp]
      have hgo : maxByKeyGo f x (y :: ys) = maxByKeyGo f x ys := by
        simp [maxByKeyGo, hxy]
      have ihx := ih x
      by_cases hx : ((x :: y :: ys).all (fun q => decide (f q ≤ f x))) = true
      · rw [find?_cons_true (fun p => (x :: y :: ys).all (fun q => decide (f q ≤ f p)))
              x (y :: ys) (by simpa using hx)]
        have hx2 : ((fun p => (x :: ys).all (fun q => decide (f q ≤ f p))) x) = true := by
          show ((x :: ys).all (fun q => decide (f q ≤ f x))) = true
          have hc := congrFun hpred x
          rw [← hc]; simpa using hx
        rw [find?_cons_true (fun p => (x :: ys).all (fun q => decide (f q ≤ f p))) x ys hx2]
          at ihx
        rw [hgo]
        exact ihx
      · rw [Bool.not_eq_true] at hx
        have hyf : ((x :: y :: ys).all (fun q => decide (f q ≤ f y))) = false := by
          by_contra hc
          rw [Bool.not_eq_false] at hc
          have hall : ((x :: y :: ys).all (fun q => decide (f q ≤ f x))) = true := by
            rw [List.all_eq_true] at hc ⊢
            intro q hq
            have hqy := hc q hq
            rw [decide_eq_true_eq] at hqy ⊢
            exact le_trans hqy hyx
          rw [hx] at hall
          exact Bool.false_ne_true hall
        rw [find?_cons_false (fun p => (x :: y :: ys).all (fun q => decide (f q ≤ f p)))
              x (y :: ys) (by simpa using hx)]
        rw [find?_cons_false (fun p => (x :: y :: ys).all (fun q => decide (f q ≤ f p)))
              y ys (by simpa using hyf)]
        have hx2 : ((fun p => (x :: ys).all (fun q => decide (f q ≤ f p))) x) = false := by
          show ((x :: ys).all (fun q => decide (f q ≤ f x))) = false
          have hc := congrFun hpred x
          rw [← hc]; simpa using hx
        rw [find?_cons_false (fun p => (x :: ys).all (fun q => decide (f q ≤ f p))) x ys hx2]
          at ihx
        rw [hpred, hgo]
        exact ihx

/-- `maxByKey` on a non-empty list equals the first element with maximal key. -/
theorem maxByKey_find (f : α → Nat) (l : List α) (hl : l ≠ []) :
    l.find? (fun p => l.all (fun q => decide (f q ≤ f p))) = maxByKey f l := by
  cases l with
  | nil => exact absurd rfl hl
  | cons x xs => exact maxByKeyGo_find f xs x

theorem dayCounts_ne_nil (ts : List Int) : dayCounts ts ≠ [] := by
  have h : (dayCounts ts).length = 7 := by simp [dayCounts]
  intro hnil
  rw [hnil] at h
  simp at h

theorem hourCounts_ne_nil (ts : List Int) : hourCounts ts ≠ [] := by
  have h : (hourCounts ts).length = 24 := by simp [hourCounts]
  intro hnil
  rw [hnil] at h
  simp at h

/-- C6: for every non-empty timestamp sequence the reported most-active day
and most-active hour are the first buckets — in canonical enumeration order
(the order of `dayCounts` / `hourCounts`: Monday→Sunday, 0→23) — whose count
is greater than or equal to every bucket's count, i.e. the buckets with the
maximum count, earliest bucket winning ties. -/
theorem most_active_first_max (ts : List Int) (h : ts ≠ []) :
    (analyze_posting_patterns ts).map (fun s => s.most_active_day)
        = ((dayCounts ts).find?
            (fun p => (dayCounts ts).all (fun q => decide (q.2 ≤ p.2)))).map Prod.fst ∧
    (analyze_posting_patterns ts).map (fun s => s.most_active_hour)
        = ((hourCounts ts).find?
            (fun p => (hourCounts ts).all (fun q => decide (q.2 ≤ p.2)))).map Prod.fst := by
  cases ts with
  | nil => exact absurd rfl h
  | cons t rest =>
    have hd := maxByKey_find Prod.snd (dayCounts (t :: rest)) (dayCounts_ne_nil _)
    have hh := maxByKey_find Prod.snd (hourCounts (t :: rest)) (hourCounts_ne_nil _)
    obtain ⟨pd, hpd⟩ : ∃ pd, maxByKey Prod.snd (dayCounts (t :: rest)) = some pd := by
      cases hl : dayCounts (t :: rest) with
      | nil => exact absurd hl (dayCounts_ne_nil _)
      | cons a as => exact ⟨maxByKeyGo Prod.snd a as, rfl⟩
    obtain ⟨ph, hph⟩ : ∃ ph, maxByKey Prod.snd (hourCounts (t :: rest)) = some ph := by
      cases hl : hourCounts (t :: rest) with
      | nil => exact absurd hl (hourCounts_ne_nil _)
      | cons a as => exact ⟨maxByKeyGo Prod.snd a as, rfl⟩
    constructor
    · have e : (analyze_posting_patterns (t :: rest)).map (fun s => s.most_active_day)
          = some (((maxByKey Prod.snd (dayCounts (t :: rest))).map Prod.fst).getD "") := rfl
      rw [e, hd, hpd]
      simp
    · have e : (analyze_posting_patterns (t :: rest)).map (fun s => s.most_active_hour)
          = some (((maxByKey Prod.snd (hourCounts (t :: rest))).map Prod.fst).getD 0) := rfl
      rw [e, hh, hph]
      simp

/-- Witness for C6 at the concrete input `[0]` (one post at the epoch). -/
theorem most_active_first_max_witness :
    (analyze_posting_patterns ([0] : List Int)).map (fun s => s.most_active_day)
        = ((dayCounts [0]).find?
            (fun p => (dayCounts [0]).all (fun q => decide (q.2 ≤ p.2)))).map Prod.fst ∧
    (analyze_posting_patterns ([0] : List Int)).map (fun s => s.most_active_hour)
        = ((hourCounts [0]).find?
            (fun p => (hourCounts [0]).all (fun q => decide (q.2 ≤ p.2)))).map Prod.fst :=
  most_active_first_max [0] (by simp)

/-! ### CSV export theorems -/

/-- C4 (counterexample): with `csv.DictWriter`'s defaults the behaviour is the
opposite of the claim.  A later record carrying an extra field (`"b"` beyond
the first record's field set `["a"]`) raises `ValueError` — it is not
silently dropped; a later record missing a field (`"b"` absent) is written
with the empty-string default and no error is raised. -/
theorem csv_schema_behaviour_swapped :
    (exportPostsCsv [[("a", "1")], [("a", "2"), ("b", "3")]]).map (fun r => r.2.isSome)
        = some true ∧
    exportPostsCsv [[("a", "1"), ("b", "2")], [("a", "3")]]
        = some ([["a", "b"], ["1", "2"], ["3", ""]], none) := by
  constructor
  · rfl
  · decide

/-- C4 (amended): the field set of the posts/locations CSV is fixed by the
first record; a later record whose keys all lie inside that field set is
written without error, any missing field silently defaulted to the empty
string (`restval=""`), while a record carrying a field outside the first
record's field set raises a reportable `ValueError`
(`extrasaction="raise"`) — i.e. extra fields are the error case and missing
fields are the silently-defaulted case, the reverse of the claim. -/
theorem csv_extra_raises_missing_defaults (r : Row) (rs : List Row) :
    ((∀ row ∈ r :: rs, ∀ p ∈ row, p.1 ∈ r.map Prod.fst) →
        writeRowsAcc (r.map Prod.fst) (r :: rs)
          = ((r :: rs).map (fun row => (r.map Prod.fst).map (fun k => rowGet row k "")), none)) ∧
    ((∃ row ∈ r :: rs, ∃ p ∈ row, p.1 ∉ r.map Prod.fst) →
        (writeRowsAcc (r.map Prod.fst) (r :: rs)).2.isSome = true) := by
  have hclean : ∀ (keys : List String) (rows : List Row),
      (∀ row ∈ rows, ∀ p ∈ row, p.1 ∈ keys) →
      writeRowsAcc keys rows = (rows.map (fun row => keys.map (fun k => rowGet row k "")), none) := by
    intro keys rows
    induction rows with
    | nil => intro _; rfl
    | cons row rows ih =>
      intro hall
      have hwrong : ((row.map Prod.fst).filter (fun k => decide (k ∉ keys))) = [] := by
        rw [List.filter_eq_nil_iff]
        intro k hk
        obtain ⟨p, hp, hpk⟩ := List.mem_map.mp hk
        simp only [decide_eq_true_eq, Decidable.not_not]
        rw [← hpk]
        exact hall row (by simp) p hp
      simp only [writeRowsAcc, dictToList, hwrong, if_neg (by simp : ¬ (([] : List String) ≠ []))]
      rw [ih (fun row2 h2 => hall row2 (by simp [h2]))]
      rfl
  have hdirty : ∀ (keys : List String) (rows : List Row),
      (∃ row ∈ rows, ∃ p ∈ row, p.1 ∉ keys) →
      (writeRowsAcc keys rows).2.isSome = true := by
    intro keys rows
    induction rows with
    | nil => rintro ⟨row, hrow, -⟩; simp at hrow
    | cons row rows ih =>
      rintro ⟨row2, hrow2, p, hp, hpk⟩
      rcases List.mem_cons.mp hrow2 with h2 | h2
      · subst h2
        have hwrong : ((row2.map Prod.fst).filter (fun k => decide (k ∉ keys))) ≠ [] := by
          intro hnil
          rw [List.filter_eq_nil_iff] at hnil
          have h3 := hnil p.1 (List.mem_map.mpr ⟨p, hp, rfl⟩)
          simp only [decide_eq_true_eq, Decidable.not_not] at h3
          exact hpk h3
        simp [writeRowsAcc, dictToList, if_pos hwrong]
      · have := ih ⟨row2, h2, p, hp, hpk⟩
        cases hdl : dictToList keys row with
        | error e => simp [writeRowsAcc, hdl]
        | ok vals =>
          simp only [writeRowsAcc, hdl]
          cases hrec : writeRowsAcc keys rows with
          | mk written err =>
            rw [hrec] at this
            simpa using this
  exact ⟨hclean (r.map Prod.fst) (r :: rs), hdirty (r.map Prod.fst) (r :: rs)⟩

/-- Witness for the amended C4 at concrete inputs: a clean pair of rows with a
missing field writes the empty-string default; an extra field makes the
writer raise. -/
theorem csv_extra_raises_missing_defaults_witness :
    writeRowsAcc ["a", "b"] [[("a", "1"), ("b", "2")], [("a", "3")]]
        = ([["1", "2"], ["3", ""]], none) ∧
    (writeRowsAcc ["a"] [[("a", "1")], [("a", "2"), ("b", "3")]]).2.isSome = true := by
  constructor
  · have h := (csv_extra_raises_missing_defaults [("a", "1"), ("b", "2")] [[("a", "3")]]).1
      (by decide)
    exact h.trans (by decide)
  · exact (csv_extra_raises_missing_defaults [("a", "1")] [[("a", "2"), ("b", "3")]]).2
      (by decide)

/-! ### PresenceProber theorems -/

/-- C7: probing returns exactly one result per templated URL, in template
order, whatever the per-URL outcomes (the oracle covers any combination of
responses and failures, and `check_url` is total); in particular
`search_external_references` always returns exactly 7 results, one per
configured platform, in the configured order. -/
theorem probe_preserves_order (oracle : String → Except String Nat) (target : String)
    (urls : List String) (i : Nat) :
    (probeAll oracle urls).length = urls.length ∧
    (probeAll oracle urls)[i]? = (urls[i]?).map (check_url oracle) ∧
    (search_external_references oracle target).length = 7 ∧
    search_external_references oracle target = probeAll oracle (sites_to_check target) := by
  refine ⟨List.length_map _ _, ?_, ?_, rfl⟩
  · simp [probeAll]
  · simp [search_external_references, probeAll, sites_to_check]

/-- C8: classification of one presence check: HTTP 200 is `"Found"` (code
recorded), any other received HTTP response is `"Not found"` with the status
code recorded, and a transport-level failure is `"Error"` carrying the
exception's rendering; `check_url` is a total function, so no exception
reaches the caller. -/
theorem check_url_classification (oracle : String → Except String Nat) (url : String)
    (code : Nat) (e : String) :
    (oracle url = .ok 200 →
        (check_url oracle url).status = "Found" ∧
        (check_url oracle url).response_code = .num 200) ∧
    (oracle url = .ok code → code ≠ 200 →
        (check_url oracle url).status = "Not found" ∧
        (check_url oracle url).response_code = .num code) ∧
    (oracle url = .error e →
        (check_url oracle url).status = "Error" ∧
        (check_url oracle url).response_code = .msg e) := by
  refine ⟨?_, ?_, ?_⟩
  · intro h
    simp [check_url, h]
  · intro h hne
    simp [check_url, h, hne]
  · intro h
    simp [check_url, h]

/-- The network oracle used by the C8 witness: one URL answers 200, one
answers 404, everything else times out. -/
def oracleW : String → Except String Nat := fun u =>
  if u = "https://twitter.com/alice" then .ok 200
  else if u = "https://github.com/alice" then .ok 404
  else .error "timed out"

/-- Witness for C8: each of the three classifications at a concrete oracle
and URL. -/
theorem check_url_classification_witness :
    ((check_url oracleW "https://twitter.com/alice").status = "Found" ∧
      (check_url oracleW "https://twitter.com/alice").response_code = .num 200) ∧
    ((check_url oracleW "https://github.com/alice").status = "Not found" ∧
      (check_url oracleW "https://github.com/alice").response_code = .num 404) ∧
    ((check_url oracleW "https://x.example/alice").status = "Error" ∧
      (check_url oracleW "https://x.example/alice").response_code = .msg "timed out") :=
  ⟨(check_url_classification oracleW "https://twitter.com/alice" 200 "timed out").1 rfl,
   (check_url_classification oracleW "https://github.com/alice" 404 "timed out").2.1 rfl
     (by decide),
   (check_url_classification oracleW "https://x.example/alice" 200 "timed out").2.2 rfl⟩

/-! ### ConnectionDiffer theorems -/

/-- C9: the derived difference lists are computed from handle membership
only, so permuting either input list leaves both `not_following_back` and
`not_followed_back` unchanged when viewed as sets. -/
theorem connection_diff_perm_invariant (f f2 g g2 : List User)
    (hf : List.Perm f f2) (hg : List.Perm g g2) :
    (notFollowingBack f g).toFinset = (notFollowingBack f2 g2).toFinset ∧
    (notFollowedBack f g).toFinset = (notFollowedBack f2 g2).toFinset := by
  have hmem : ∀ (a b a2 b2 : List User), List.Perm a a2 → List.Perm b b2 →
      ∀ u, u ∈ notFollowingBack a b ↔ u ∈ notFollowingBack a2 b2 := by
    intro a b a2 b2 ha hb u
    simp only [notFollowingBack, List.mem_map, List.mem_filter, decide_eq_true_eq]
    constructor
    · rintro ⟨user, ⟨hub, hnot⟩, rfl⟩
      refine ⟨user, ⟨hb.mem_iff.mp hub, ?_⟩, rfl⟩
      rintro ⟨x, hx, hxu⟩
      exact hnot ⟨x, ha.mem_iff.mpr hx, hxu⟩
    · rintro ⟨user, ⟨hub, hnot⟩, rfl⟩
      refine ⟨user, ⟨hb.mem_iff.mpr hub, ?_⟩, rfl⟩
      rintro ⟨x, hx, hxu⟩
      exact hnot ⟨x, ha.mem_iff.mp hx, hxu⟩
  constructor
  · apply Finset.ext
    intro u
    rw [List.mem_toFinset, List.mem_toFinset]
    exact hmem f g f2 g2 hf hg u
  · apply Finset.ext
    intro u
    rw [List.mem_toFinset, List.mem_toFinset]
    show u ∈ notFollowedBack f g ↔ u ∈ notFollowedBack f2 g2
    simp only [notFollowedBack, List.mem_map, List.mem_filter, decide_eq_true_eq]
    constructor
    · rintro ⟨user, ⟨hub, hnot⟩, rfl⟩
      refine ⟨user, ⟨hf.mem_iff.mp hub, ?_⟩, rfl⟩
      rintro ⟨x, hx, hxu⟩
      exact hnot ⟨x, hg.mem_iff.mpr hx, hxu⟩
    · rintro ⟨user, ⟨hub, hnot⟩, rfl⟩
      refine ⟨user, ⟨hf.mem_iff.mpr hub, ?_⟩, rfl⟩
      rintro ⟨x, hx, hxu⟩
      exact hnot ⟨x, hg.mem_iff.mp hx, hxu⟩

/-- Concrete users for the connection witnesses. -/
def exampleUserA : User := { username := "alice", full_name := "Alice", is_verified := false }

def exampleUserB : User := { username := "bob", full_name := "Bob", is_verified := false }

def exampleUserC : User := { username := "carol", full_name := "Carol", is_verified := true }

/-- Witness for C9: swapping the two followers leaves both derived sets
unchanged. -/
theorem connection_diff_perm_invariant_witness :
    (notFollowingBack [exampleUserA, exampleUserB] [exampleUserC]).toFinset
        = (notFollowingBack [exampleUserB, exampleUserA] [exampleUserC]).toFinset ∧
    (notFollowedBack [exampleUserA, exampleUserB] [exampleUserC]).toFinset
        = (notFollowedBack [exampleUserB, exampleUserA] [exampleUserC]).toFinset :=
  connection_diff_perm_invariant [exampleUserA, exampleUserB] [exampleUserB, exampleUserA]
    [exampleUserC] [exampleUserC] (by decide) (List.Perm.refl _)

/-- C10: every failure path of `analyze_connections` (private profile, not
logged in, or a raised enumeration) returns the dict with exactly the keys
`followers` and `following`, both empty lists — omitting the four extra keys
(`followers_count`, `following_count`, `not_following_back`,
`not_followed_back`) that the success path carries, whose key list is
different. -/
theorem connections_failure_shape (p l : Bool) (fr gr : Except String (List User))
    (fl gl : List User) :
    ((p = true ∨ l = false ∨ (∃ e, fr = .error e) ∨ (∃ e, gr = .error e)) →
        analyze_connections p l fr gr = failure_connections ∧
        (analyze_connections p l fr gr).map Prod.fst = ["followers", "following"]) ∧
    (p = false → l = true → fr = .ok fl → gr = .ok gl →
        (analyze_connections p l fr gr).map Prod.fst
          = ["followers_count", "following_count", "not_following_back",
             "not_followed_back", "followers", "following"]) := by
  constructor
  · intro h
    have hfail : analyze_connections p l fr gr = failure_connections := by
      cases p with
      | true => simp [analyze_connections]
      | false =>
        cases l with
        | false => simp [analyze_connections]
        | true =>
          rcases h with h | h | ⟨e, he⟩ | ⟨e, he⟩
          · exact absurd h (by simp)
          · exact absurd h (by simp)
          · subst he
            cases gr <;> simp [analyze_connections]
          · subst he
            cases fr <;> simp [analyze_connections]
    exact ⟨hfail, by rw [hfail]; rfl⟩
  · intro hp hl hfr hgr
    subst hp; subst hl; subst hfr; subst hgr
    simp [analyze_connections]

/-- Witness for C10: a private profile yields the two-key failure dict; a
logged-in scan of a public profile yields the six-key success dict. -/
theorem connections_failure_shape_witness :
    analyze_connections true true (.ok []) (.ok []) = failure_connections ∧
    (analyze_connections false true (.ok [exampleUserA]) (.ok [])).map Prod.fst
      = ["followers_count", "following_count", "not_following_back",
         "not_followed_back", "followers", "following"] :=
  ⟨((connections_failure_shape true true (.ok []) (.ok []) [] []).1 (Or.inl rfl)).1,
   (connections_failure_shape false true (.ok [exampleUserA]) (.ok [])
      [exampleUserA] []).2 rfl rfl rfl rfl⟩

end Instascan
